import Mathlib

/-
Verification of the mailbox / shared-channel / lifecycle core of the
sunshine-sdk streaming host against its specification.

The repository sources available are src/src/main.cpp, src/src/logging.cpp and
src/src/stream.h.  The mailbox primitives (safe::event_t, safe::queue_t,
safe::mail_raw_t), the shared-memory channel ring and the session bodies are
not among them — only their declarations and callers are — so those components
are modelled from the specification, as marked on each definition.  Everything
embedded from main.cpp cites the function it reproduces.
-/

namespace Sunshine

/-! ## Event (mailbox latch) -/

/-- Modelled from the spec: the mailbox Event latch (safe::event_t, whose source
is not under src/; only its callers in main.cpp are).  State is unset or
set(value); once set it never reverts to unset. -/
structure Event (α : Type) where
  state : Option α
deriving DecidableEq, Repr

/-- Modelled from the spec: raise sets the state to set(value); a later raise
overwrites the value but the state remains set. -/
def Event.raise {α : Type} (_e : Event α) (v : α) : Event α :=
  { state := some v }

/-- Modelled from the spec: peek is non-blocking and reads true iff the state is
set. -/
def Event.peek {α : Type} (e : Event α) : Bool :=
  e.state.isSome

/-- Modelled from the spec: view blocks the caller until the state is set and
then returns the latched value without consuming it; modelled as the latched
value, present exactly when the Event is set. -/
def Event.view {α : Type} (e : Event α) : Option α :=
  e.state

/-! ## Queue (mailbox channel) -/

/-- Modelled from the spec: the mailbox Queue (safe::queue_t, whose source is
not under src/): an ordered sequence of pending items plus an open/closed
flag. -/
structure Queue (α : Type) where
  items : List α
  closed : Bool
deriving DecidableEq, Repr

/-- Modelled from the spec: push appends to the tail and always succeeds while
the queue is open. -/
def Queue.push {α : Type} (q : Queue α) (x : α) : Queue α :=
  if q.closed then q else { q with items := q.items ++ [x] }

/-- Modelled from the spec: pop returns the oldest pending item (FIFO) or the
closed indicator (none) once the queue is closed and empty; on an open empty
queue pop blocks, which the model also renders as none paired with the
unchanged queue. -/
def Queue.pop {α : Type} (q : Queue α) : Option α × Queue α :=
  match q.items with
  | x :: rest => (some x, { q with items := rest })
  | [] => (none, q)

/-- Modelled from the spec: close marks the queue closed so pending and future
pops return the closed indicator once the items run out. -/
def Queue.close {α : Type} (q : Queue α) : Queue α :=
  { q with closed := true }

/-- Successive pops: the sequence of items obtained by n consecutive pop calls,
stopping early if pop yields no item. -/
def Queue.popN {α : Type} : Queue α → Nat → List α
  | _, 0 => []
  | q, n + 1 =>
    match q.pop with
    | (some x, q2) => x :: q2.popN n
    | (none, _) => []

/-! ## Mailbox (registry of Events) -/

/-- Modelled from the spec: the mailbox registry mapping keys to lazily created
instances; here the Event side, with handles represented as numeric object
identities into a store. -/
structure Mailbox (α : Type) where
  entries : List (String × Nat)
  next : Nat
  store : Nat → Event α

/-- Modelled from the spec: idempotent lookup-or-create — the key's existing
object handle if present, else a fresh Event registered under the key. -/
def Mailbox.event {α : Type} (m : Mailbox α) (key : String) : Nat × Mailbox α :=
  match m.entries.lookup key with
  | some id => (id, m)
  | none =>
    (m.next,
      { entries := (key, m.next) :: m.entries
        next := m.next + 1
        store := m.store })

/-- Raising a value through a handle obtained from the mailbox. -/
def Mailbox.raiseOn {α : Type} (m : Mailbox α) (id : Nat) (v : α) : Mailbox α :=
  { m with store := Function.update m.store id (Event.raise (m.store id) v) }

/-- Viewing through a handle obtained from the mailbox. -/
def Mailbox.viewOn {α : Type} (m : Mailbox α) (id : Nat) : Option α :=
  (m.store id).view

/-! ## Claims C5, C6, C7 -/

/-- The last element of a list, or the default when the list is empty. -/
def lastD {α : Type} (d : α) : List α → α
  | [] => d
  | x :: t => lastD x t

/-- Claim C5: an Event is a latch: after raise(v), no matter how many further
raises follow, the state stays set — peek reads true — and view returns the
latched (most recently raised) value; view is a function of the Event state, so
all readers of that state observe the same terminal value. -/
theorem C5_event_latch {α : Type} (e : Event α) (v : α) (later : List α) :
    (later.foldl Event.raise (e.raise v)).peek = true ∧
    (later.foldl Event.raise (e.raise v)).view = some (lastD v later) := by
  induction later generalizing e v with
  | nil => exact ⟨rfl, rfl⟩
  | cons w t ih => exact ih (e.raise v) w

/-- Claim C6: FIFO: pushing a sequence L into a fresh open Queue and then
popping |L| times returns exactly L in push order; pop on a closed empty queue
returns the closed indicator. -/
theorem C6_queue_fifo {α : Type} (L : List α) :
    (L.foldl Queue.push { items := [], closed := false }).popN L.length = L ∧
    (Queue.pop { items := ([] : List α), closed := true }).1 = none := by
  refine ⟨?_, rfl⟩
  have hfold : ∀ (M : List α) (I : List α),
      M.foldl Queue.push { items := I, closed := false } =
        { items := I ++ M, closed := false } := by
    intro M
    induction M with
    | nil => intro I; simp
    | cons x t ih =>
      intro I
      have hpush : Queue.push { items := I, closed := false } x =
          { items := I ++ [x], closed := false } := by
        simp [Queue.push]
      simp only [List.foldl, hpush, ih]
      simp
  have hpop : ∀ (M : List α) (c : Bool),
      Queue.popN { items := M, closed := c } M.length = M := by
    intro M
    induction M with
    | nil => intro c; rfl
    | cons x t ih =>
      intro c
      simp [Queue.popN, Queue.pop, ih]
  rw [hfold L []]
  simpa using hpop L false

/-- Claim C7: mailbox lookup is idempotent: a second event lookup with the same
key on the mailbox returned by the first yields the same handle and leaves the
mailbox unchanged, and a value raised through the first handle is observed
(viewed) through the second. -/
theorem C7_mailbox_idempotent {α : Type} (m : Mailbox α) (key : String) (v : α) :
    ((m.event key).2.event key).1 = (m.event key).1 ∧
    ((m.event key).2.event key).2 = (m.event key).2 ∧
    (((m.event key).2.raiseOn (m.event key).1 v).viewOn
        ((m.event key).2.event key).1) = some v := by
  cases hl : m.entries.lookup key with
  | some id =>
    constructor
    · simp [Mailbox.event, hl]
    constructor
    · simp [Mailbox.event, hl]
    · simp [Mailbox.event, hl, Mailbox.raiseOn, Mailbox.viewOn, Event.view,
        Event.raise]
  | none =>
    have hl2 : ((key, m.next) :: m.entries).lookup key = some m.next := by
      simp [List.lookup]
    constructor
    · simp [Mailbox.event, hl, hl2]
    constructor
    · simp [Mailbox.event, hl, hl2]
    · simp [Mailbox.event, hl, hl2, Mailbox.raiseOn, Mailbox.viewOn,
        Event.view, Event.raise]

/-! ## Shared channel segment (ring buffer protocol) -/

/-- Modelled from the spec: one channel slot of the shared channel segment
(the shared-memory protocol source is not under src/): a monotonically
increasing write index and a fixed-capacity packet ring, here the ring as a map
from slot number to its current contents. -/
structure Channel (α : Type) where
  write_index : Nat
  ring : Nat → Option α

/-- A channel before any packet has been written. -/
def emptyChannel (α : Type) : Channel α :=
  { write_index := 0, ring := fun _ => none }

/-- Modelled from the spec: push_packet writes into slot write_index mod
QUEUE_SIZE, then increments write_index; it never blocks and overwrites the
oldest slot when the ring is full.  Q is the ring capacity QUEUE_SIZE. -/
def push_packet {α : Type} (Q : Nat) (st : Channel α) (p : α) : Channel α :=
  { write_index := st.write_index + 1
    ring := Function.update st.ring (st.write_index % Q) (some p) }

/-- Modelled from the spec: poll_packets produces the unread packets with
logical indices in (cur, write_index], clipped to the last QUEUE_SIZE entries;
packets older than that were already overwritten and are skipped without
error. -/
def poll_packets {α : Type} (Q : Nat) (st : Channel α) (cur : Nat) :
    List (Option α) :=
  (List.range (st.write_index - max cur (st.write_index - Q))).map
    fun k => st.ring ((max cur (st.write_index - Q) + k) % Q)

/-- Two logical indices less than a ring capacity apart occupy distinct
slots. -/
theorem mod_ne_of_window {Q a b : Nat} (hab : a < b) (h : b - a < Q) :
    a % Q ≠ b % Q := by
  intro hmod
  have hdvd : Q ∣ b - a := (Nat.modEq_iff_dvd' (Nat.le_of_lt hab)).mp hmod
  have := Nat.le_of_dvd (by omega) hdvd
  omega

/-- Folding pushes advances the write index by the number of packets pushed. -/
theorem pushList_write_index {α : Type} (Q : Nat) (L : List α)
    (st : Channel α) :
    (L.foldl (push_packet Q) st).write_index = st.write_index + L.length := by
  induction L generalizing st with
  | nil => simp
  | cons p t ih =>
    simp only [List.foldl]
    rw [ih]
    simp [push_packet]
    omega

/-- After pushing the packets of L into an empty channel, every logical index i
within the last Q writes still has its packet in slot i mod Q. -/
theorem ring_after_pushes {α : Type} (Q : Nat) (_hQ : 0 < Q) (L : List α) :
    ∀ (i : Nat), i < L.length → L.length - Q ≤ i →
      (L.foldl (push_packet Q) (emptyChannel α)).ring (i % Q) = L[i]? := by
  induction L using List.reverseRecOn with
  | nil => intro i hi _; simp at hi
  | append_singleton M p ih =>
    intro i hi hwin
    rw [List.foldl_append]
    simp only [List.foldl]
    have hw : (M.foldl (push_packet Q) (emptyChannel α)).write_index =
        M.length := by
      simpa [emptyChannel] using pushList_write_index Q M (emptyChannel α)
    by_cases hcase : i = M.length
    · subst hcase
      simp [push_packet, hw, Function.update_same]
    · have hiM : i < M.length := by
        have := List.length_append M [p]
        simp at hi
        omega
      have hne : i % Q ≠ M.length % Q := by
        apply mod_ne_of_window hiM
        have := List.length_append M [p]
        simp at hwin
        omega
      have hstep : (push_packet Q (M.foldl (push_packet Q) (emptyChannel α))
          p).ring (i % Q) =
          (M.foldl (push_packet Q) (emptyChannel α)).ring (i % Q) := by
        simp [push_packet, hw, Function.update_noteq hne]
      rw [hstep, ih i hiM (by simp at hwin; omega)]
      simp [List.getElem?_append, hiM]

/-- Claim C3: after the packets of L are pushed, a consumer whose cursor is 0
observes exactly the QUEUE_SIZE most recent packets (all of them when there are
at most QUEUE_SIZE), in write order, min(N, QUEUE_SIZE) in number; older
packets are silently overwritten with no loss error. -/
theorem C3_ring_roundtrip {α : Type} (Q : Nat) (hQ : 0 < Q) (L : List α) :
    poll_packets Q (L.foldl (push_packet Q) (emptyChannel α)) 0 =
      (L.drop (L.length - Q)).map some ∧
    (poll_packets Q (L.foldl (push_packet Q) (emptyChannel α)) 0).length =
      min L.length Q := by
  have hw : (L.foldl (push_packet Q) (emptyChannel α)).write_index =
      L.length := by
    simpa [emptyChannel] using pushList_write_index Q L (emptyChannel α)
  have hmain : poll_packets Q (L.foldl (push_packet Q) (emptyChannel α)) 0 =
      (L.drop (L.length - Q)).map some := by
    unfold poll_packets
    rw [hw]
    simp only [Nat.zero_max]
    apply List.ext_getElem
    · simp
    · intro k h1 h2
      simp only [List.getElem_map, List.getElem_range]
      have hk : k < L.length - (L.length - Q) := by simpa using h1
      have hget : (L.foldl (push_packet Q) (emptyChannel α)).ring
          ((L.length - Q + k) % Q) = L[L.length - Q + k]? :=
        ring_after_pushes Q hQ L (L.length - Q + k) (by omega) (by omega)
      rw [hget]
      have hidx : L.length - Q + k < L.length := by omega
      rw [List.getElem?_eq_getElem hidx]
      congr 1
      rw [List.getElem_drop]
  refine ⟨hmain, ?_⟩
  rw [hmain]
  simp
  omega

/-- Claim C3 at a concrete input: capacity 3, five pushes; the consumer at
cursor 0 observes exactly the three most recent packets in write order. -/
theorem C3_ring_roundtrip_witness :
    0 < 3 ∧
    poll_packets 3 ([0, 1, 2, 3, 4].foldl (push_packet 3) (emptyChannel Nat)) 0
      = [some 2, some 3, some 4] :=
  ⟨by norm_num, (C3_ring_roundtrip 3 (by norm_num) [0, 1, 2, 3, 4]).1⟩

/-! ## Session lifecycle (stream.h) -/

/-- The session states, embedded from the state_e enumeration in
src/src/stream.h. -/
inductive state_e
  | STOPPED
  | STOPPING
  | STARTING
  | RUNNING
deriving DecidableEq, Repr

/-- Modelled from the spec: the session's lifecycle state (session_t's body is
not under src/; src/src/stream.h declares only its interface). -/
structure session_t where
  state : state_e
deriving DecidableEq, Repr

/-- Modelled from the spec: alloc constructs a session in STOPPED. -/
def session.alloc : session_t :=
  { state := state_e.STOPPED }

/-- Modelled from the spec: start transitions STOPPED to STARTING to RUNNING on
success and STARTING back to STOPPED on failure (e.g. encoder probe failure);
returned are the sequence of states traversed and the resulting session. -/
def session.start (s : session_t) (probeOk : Bool) : List state_e × session_t :=
  if s.state = state_e.STOPPED then
    if probeOk then
      ([state_e.STARTING, state_e.RUNNING], { state := state_e.RUNNING })
    else
      ([state_e.STARTING, state_e.STOPPED], { state := state_e.STOPPED })
  else ([], s)

/-- Non-blocking state read, per the stream::session::state declaration. -/
def session.stateOf (s : session_t) : state_e :=
  s.state

/-- Claim C4: from STOPPED, a failing start (encoder-probe failure path) leaves
the session reading STOPPED — not RUNNING and not STARTING — after passing
through STARTING; a successful start traverses STOPPED to STARTING to
RUNNING. -/
theorem C4_session_start (s : session_t) (h : s.state = state_e.STOPPED) :
    (session.start s false).1 = [state_e.STARTING, state_e.STOPPED] ∧
    session.stateOf (session.start s false).2 = state_e.STOPPED ∧
    session.stateOf (session.start s false).2 ≠ state_e.RUNNING ∧
    session.stateOf (session.start s false).2 ≠ state_e.STARTING ∧
    (session.start s true).1 = [state_e.STARTING, state_e.RUNNING] ∧
    session.stateOf (session.start s true).2 = state_e.RUNNING := by
  simp [session.start, session.stateOf, h]

/-- Claim C4 at a concrete input: a freshly allocated session. -/
theorem C4_session_start_witness :
    session.alloc.state = state_e.STOPPED ∧
    session.stateOf (session.start session.alloc false).2 = state_e.STOPPED ∧
    session.stateOf (session.start session.alloc true).2 = state_e.RUNNING :=
  ⟨rfl, (C4_session_start session.alloc rfl).2.1,
    (C4_session_start session.alloc rfl).2.2.2.2.2⟩

/-! ## Entry points in src/src/main.cpp -/

/-- The externally visible steps the main.cpp entry points perform, in program
order. -/
inductive MainAct
  | logEncoderError
  | spawnVideoThread
  | spawnCaptureThread
  | viewShutdown
  | deinit
deriving DecidableEq, Repr

/-- Embedding of StartCallback (src/src/main.cpp lines 284-336): if
video::probe_encoders() reports failure, log and return 1 before any thread is
created; otherwise spawn the video forwarding thread and the capture thread,
block in view() on the shutdown Event (which returns only once that Event is
raised), then return 0.  The result is the ordered step trace paired with the
return code. -/
def StartCallback (probeFails : Bool) : List MainAct × Int :=
  if probeFails then ([MainAct.logEncoderError], 1)
  else
    ([MainAct.spawnVideoThread, MainAct.spawnCaptureThread,
      MainAct.viewShutdown], 0)

/-- Embedding of StartQueue (src/src/main.cpp lines 348-381): same probe gate;
on success it spawns only the capture thread, views the shutdown Event, calls
DeInit and returns 0. -/
def StartQueue (probeFails : Bool) : List MainAct × Int :=
  if probeFails then ([MainAct.logEncoderError], 1)
  else ([MainAct.spawnCaptureThread, MainAct.viewShutdown, MainAct.deinit], 0)

/-- Claim C1: both entry points return 1 on encoder-probe failure, with no
thread created beforehand, and otherwise return 0 with the blocking shutdown
observation in their trace (view returns only after the shutdown Event is
raised), the return being the last step. -/
theorem C1_entry_exit_codes :
    StartCallback true = ([MainAct.logEncoderError], 1) ∧
    StartQueue true = ([MainAct.logEncoderError], 1) ∧
    MainAct.spawnVideoThread ∉ (StartCallback true).1 ∧
    MainAct.spawnCaptureThread ∉ (StartCallback true).1 ∧
    MainAct.spawnCaptureThread ∉ (StartQueue true).1 ∧
    StartCallback false =
      ([MainAct.spawnVideoThread, MainAct.spawnCaptureThread,
        MainAct.viewShutdown], 0) ∧
    StartQueue false =
      ([MainAct.spawnCaptureThread, MainAct.viewShutdown, MainAct.deinit],
        0) ∧
    MainAct.viewShutdown ∈ (StartCallback false).1 ∧
    MainAct.viewShutdown ∈ (StartQueue false).1 := by
  decide

/-! ## Init (src/src/main.cpp) -/

/-- The initialization steps Init performs, in program order. -/
inductive InitAct
  | setLocale
  | makeMailbox
  | setupAvLogging
  | setupSink
  | logPlatformInitFailure
  | logHello
  | reedSolomonInit
deriving DecidableEq, Repr

/-- Embedding of Init (src/src/main.cpp lines 131-253): the sequence of
initialization steps as a function of whether platf::init() returns a usable
guard.  When it fails, an error is logged and execution continues; there is no
early return. -/
def InitSteps (platfInitOk : Bool) : List InitAct :=
  [InitAct.setLocale, InitAct.makeMailbox, InitAct.setupAvLogging,
    InitAct.setupSink] ++
    (if platfInitOk then [] else [InitAct.logPlatformInitFailure]) ++
    [InitAct.logHello, InitAct.reedSolomonInit]

/-- Claim C8: a platf::init() failure does not abort Init: the failure is
logged and the remaining steps still run — reed_solomon_init is reached on both
the failing and the succeeding path, after the error log on the failing one. -/
theorem C8_init_continues :
    InitSteps false =
      [InitAct.setLocale, InitAct.makeMailbox, InitAct.setupAvLogging,
        InitAct.setupSink, InitAct.logPlatformInitFailure, InitAct.logHello,
        InitAct.reedSolomonInit] ∧
    InitAct.logPlatformInitFailure ∈ InitSteps false ∧
    InitAct.reedSolomonInit ∈ InitSteps false ∧
    InitAct.reedSolomonInit ∈ InitSteps true ∧
    InitAct.logPlatformInitFailure ∉ InitSteps true := by
  decide

/-! ## map_port (src/src/main.cpp) -/

/-- Embedding of map_port (src/src/main.cpp lines 113-126): the sum of the
configured base port and the offset is converted to std::uint16_t, i.e. reduced
mod 2^16, and that value is returned unconditionally. -/
def map_port (basePort : Int) (port : Int) : Nat :=
  ((basePort + port) % 65536).toNat

/-- Embedding of the range check inside map_port, exactly as written: warn when
the mapped port is below 1024 or above 65535. -/
def map_port_warning (mapped : Nat) : Bool :=
  decide (mapped < 1024) || decide (65535 < mapped)

/-- Claim C9: map_port returns the 16-bit truncation of base port plus offset
unchanged — the range check never alters the value — and since the result is
below 2^16 the above-65535 branch of the check can never fire, so the warning
condition holds exactly when the truncated result is below 1024. -/
theorem C9_map_port (basePort port : Int) :
    map_port basePort port < 65536 ∧
    map_port_warning (map_port basePort port) =
      decide (map_port basePort port < 1024) := by
  have h0 : (0 : Int) ≤ (basePort + port) % 65536 :=
    Int.emod_nonneg _ (by norm_num)
  have h1 : (basePort + port) % 65536 < 65536 :=
    Int.emod_lt_of_pos _ (by norm_num)
  have hlt : map_port basePort port < 65536 := by
    unfold map_port
    omega
  refine ⟨hlt, ?_⟩
  unfold map_port_warning
  rw [decide_eq_false (by omega : ¬65535 < map_port basePort port),
    Bool.or_false]

/-! ## Video forwarding loops (src/src/main.cpp) -/

/-- The value a completed pop call delivers: a packet, or the closed
indicator. -/
inductive PopResult (α : Type)
  | packet (p : α)
  | closed
deriving DecidableEq, Repr

/-- Embedding of the video forwarding loops in StartCallback and main
(src/src/main.cpp lines 290-309 and 413-432): each iteration blocks in pop,
then checks the shutdown event with peek, breaking before delivery if it reads
set, and otherwise delivers the popped packet to the decode callback.  pops is
the sequence of values that successive pop calls complete with inside the
trace; the Nat argument counts the pops that complete before the shutdown
event first reads set at the check.  The result is the list of packets
delivered to the callback, paired with whether the loop has terminated within
the trace — false means it is still blocked inside pop, awaiting producer
activity or a close. -/
def forwardLoop {α : Type} : List (PopResult α) → Nat → List α × Bool
  | [], _ => ([], false)
  | PopResult.closed :: _, _ => ([], true)
  | PopResult.packet _ :: _, 0 => ([], true)
  | PopResult.packet p :: rest, n + 1 =>
    let r := forwardLoop rest n
    (p :: r.1, r.2)

/-- The packets at the front of a pop sequence, up to the first closed
indication. -/
def takePackets {α : Type} : List (PopResult α) → List α
  | PopResult.packet p :: rest => p :: takePackets rest
  | _ => []

/-- Claim C2 fails as stated: with the shutdown event already set and no
further pop completing — no producer activity and the queue not closed — the
forwarding loop does not terminate within the trace: it stays blocked inside
pop, because the shutdown check is reached only after the blocking pop returns.
Termination latency is therefore bounded by producer activity, not by a
polling interval. -/
theorem C2_counterexample :
    forwardLoop ([] : List (PopResult Nat)) 0 = ([], false) := by
  rfl

/-- Claim C2 (amended): each loop checks the shutdown event once per iteration,
immediately after the blocking pop; the packets delivered to the decode
callback are exactly the packets among the pops that complete strictly before
the shutdown event reads set (cut short by a closed indication), so once the
shutdown event is set no packet popped afterwards is delivered and the loop
breaks at the first pop completing thereafter — but that break, and hence
termination, still awaits a pop completion. -/
theorem C2_no_delivery_after_shutdown {α : Type} (pops : List (PopResult α))
    (s : Nat) :
    (forwardLoop pops s).1 = takePackets (pops.take s) := by
  induction pops generalizing s with
  | nil => cases s <;> rfl
  | cons h t ih =>
    cases h with
    | closed => cases s <;> rfl
    | packet p =>
      cases s with
      | zero => rfl
      | succ n => simp [forwardLoop, takePackets, ih]

/-! ## PopFromQueue (src/src/main.cpp) -/

/-- A video packet as the loops consume it: its payload bytes (data() /
data_size()). -/
structure packet_t where
  data : List Nat
deriving DecidableEq, Repr

/-- Embedding of PopFromQueue (src/src/main.cpp lines 383-391): pop the video
packet queue, copy data_size bytes of the payload into the caller's buffer and
return data_size.  The popped value is dereferenced without any check, so the
closed/empty outcome is undefined behavior, modelled as none; the defined
outcome carries the bytes written to the buffer and the returned size. -/
def PopFromQueue (q : Queue packet_t) : Option (List Nat × Int) :=
  match q.pop with
  | (some p, _) => some (p.data, (p.data.length : Int))
  | (none, _) => none

/-- Claim C10: whenever pop delivers a packet, PopFromQueue writes exactly that
packet's data_size payload bytes into the caller's buffer and returns
data_size; under that precondition the unguarded dereference never reaches the
error case. -/
theorem C10_pop_copies (q : Queue packet_t) (p : packet_t)
    (h : (q.pop).1 = some p) :
    PopFromQueue q = some (p.data, (p.data.length : Int)) := by
  unfold PopFromQueue
  cases hq : q.items with
  | nil =>
    rw [Queue.pop, hq] at h
    simp at h
  | cons x t =>
    rw [Queue.pop, hq] at h ⊢
    simp at h
    subst h
    rfl

/-- Claim C10 at a concrete input: a queue holding one three-byte packet. -/
theorem C10_pop_copies_witness :
    (Queue.pop { items := [packet_t.mk [7, 8, 9]], closed := false }).1 =
      some (packet_t.mk [7, 8, 9]) ∧
    PopFromQueue { items := [packet_t.mk [7, 8, 9]], closed := false } =
      some ([7, 8, 9], 3) :=
  ⟨rfl,
    C10_pop_copies { items := [packet_t.mk [7, 8, 9]], closed := false }
      (packet_t.mk [7, 8, 9]) rfl⟩

end Sunshine
